import Mathlib

/-!
Verification of `pika/reconnection_strategies.py`.

The module is embedded shallowly:

* delays and random draws are rationals (`random()` returns a value in
  `[0, 1)`; each draw is passed explicitly and its consumption recorded);
* the logging calls `info` / `warning` become emitted `LogEvent` values;
* `conn.add_timeout(t, conn._reconnect)` becomes an emitted timer request
  carrying the delay `t`;
* the class attribute `ReconnectionStrategy._active`, shared by every
  instance in the process, becomes the single field of a `World` record;
* nothing in the module can raise, so the unified hook dispatcher returns
  `Except String` and is shown to always succeed.
-/

namespace Pika

/-- A log record emitted through the `pika.log` collaborator. -/
inductive LogEvent : Type
  | warning (attempts : Nat) (err : String)
  | info (delay : ℚ) (attempts : Nat)
  deriving DecidableEq, Repr

/-- Observable effects of one hook call: delays passed to
`conn.add_timeout`, number of `random()` draws consumed, log records. -/
structure HookOutput : Type where
  timers : List ℚ
  draws : Nat
  logs : List LogEvent
  deriving DecidableEq, Repr

/-- The output of a hook that has no observable effect. -/
def HookOutput.empty : HookOutput := ⟨[], 0, []⟩

/-- Concatenation of the effects of consecutive hook calls. -/
def HookOutput.append (a b : HookOutput) : HookOutput :=
  ⟨a.timers ++ b.timers, a.draws + b.draws, a.logs ++ b.logs⟩

/-- Process-wide state: the class attribute `ReconnectionStrategy._active`,
shared across every strategy instance. -/
structure World : Type where
  active : Bool
  deriving DecidableEq, Repr

/-- `_active = True` at class-definition time. -/
def World.initial : World := ⟨true⟩

/-- Instance state of `SimpleReconnectionStrategy`: the four constructor
parameters stored in `__init__` plus the mutable fields set by `_reset`. -/
structure SimpleReconnectionStrategy : Type where
  initial_retry_delay : ℚ
  multiplier : ℚ
  max_delay : ℚ
  jitter : ℚ
  current_delay : ℚ
  attempts_since_last_success : Nat
  deriving DecidableEq, Repr

namespace SimpleReconnectionStrategy

/-- `_reset`: `current_delay = initial_retry_delay`,
`attempts_since_last_success = 0`. -/
def _reset (s : SimpleReconnectionStrategy) : SimpleReconnectionStrategy :=
  { s with current_delay := s.initial_retry_delay,
           attempts_since_last_success := 0 }

/-- `__init__(initial_retry_delay=1.0, multiplier=2.0, max_delay=30.0,
jitter=0.5)`: stores the four parameters and calls `_reset`. -/
def construct (initial_retry_delay multiplier max_delay jitter : ℚ) :
    SimpleReconnectionStrategy :=
  _reset ⟨initial_retry_delay, multiplier, max_delay, jitter, 0, 0⟩

/-- The instance produced by `SimpleReconnectionStrategy()` with all
defaults. -/
def defaults : SimpleReconnectionStrategy := construct 1 2 30 (1/2)

/-- `on_connect_attempt`: `self.attempts_since_last_success += 1`. -/
def on_connect_attempt (s : SimpleReconnectionStrategy) :
    SimpleReconnectionStrategy :=
  { s with attempts_since_last_success := s.attempts_since_last_success + 1 }

/-- `on_connect_attempt_failure`: logs a warning carrying the attempt
counter and the opaque error; mutates nothing. -/
def on_connect_attempt_failure (s : SimpleReconnectionStrategy)
    (err : String) : SimpleReconnectionStrategy × List LogEvent :=
  (s, [LogEvent.warning s.attempts_since_last_success err])

/-- `on_connection_open`: `self._reset()`. -/
def on_connection_open (s : SimpleReconnectionStrategy) :
    SimpleReconnectionStrategy :=
  s._reset

/-- `new_delay`: `t = current_delay * ((random() * jitter) + 1) *
multiplier; current_delay = min(max_delay, t); return current_delay`.
The draw stands for the `random()` result. -/
def new_delay (s : SimpleReconnectionStrategy) (draw : ℚ) :
    ℚ × SimpleReconnectionStrategy :=
  let t := s.current_delay * ((draw * s.jitter) + 1) * s.multiplier
  let s' := { s with current_delay := min s.max_delay t }
  (s'.current_delay, s')

/-- `on_connection_closed`: if `not self.is_active: return`, else draw a
new delay, log at info level, and schedule `conn._reconnect` after `t`
seconds via `conn.add_timeout`. `active` is the value read from the
shared flag. -/
def on_connection_closed (s : SimpleReconnectionStrategy) (active : Bool)
    (draw : ℚ) : SimpleReconnectionStrategy × HookOutput :=
  if active = false then (s, HookOutput.empty)
  else
    let (t, s') := s.new_delay draw
    (s', ⟨[t], 1, [LogEvent.info t s'.attempts_since_last_success]⟩)

end SimpleReconnectionStrategy

/-- A strategy instance: `NullReconnectionStrategy` carries no instance
state; `SimpleReconnectionStrategy` carries its record. -/
inductive Strategy : Type
  | null : Strategy
  | simple : SimpleReconnectionStrategy → Strategy
  deriving DecidableEq, Repr

/-- `can_reconnect`: `False` on the base class and the Null variant,
`True` on the Simple variant. -/
def Strategy.can_reconnect : Strategy → Bool
  | .null => false
  | .simple _ => true

/-- `is_active`: reads `ReconnectionStrategy._active`; `self` is not
consulted. -/
def Strategy.is_active (_self : Strategy) (w : World) : Bool :=
  w.active

/-- `set_active`: writes `ReconnectionStrategy._active`; `self` is not
consulted, so the write is visible to every instance. -/
def Strategy.set_active (_self : Strategy) (_w : World) (value : Bool) :
    World :=
  ⟨value⟩

/-- The six lifecycle hooks of the `ReconnectionStrategy` interface. -/
inductive Hook : Type
  | on_connect_attempt
  | on_connect_attempt_failure (err : String)
  | on_transport_connected
  | on_transport_disconnected
  | on_connection_open
  | on_connection_closed
  deriving DecidableEq, Repr

/-- Dispatch one hook call on a strategy. The Null variant inherits the
base class's no-op bodies. `draw` is the value `random()` would return if
consulted. No branch of the source raises, which the `Except` codomain
makes explicit. -/
def Strategy.run_hook : Strategy → Hook → World → ℚ →
    Except String (Strategy × World × HookOutput)
  | .null, _, w, _ => .ok (.null, w, HookOutput.empty)
  | .simple s, .on_connect_attempt, w, _ =>
      .ok (.simple s.on_connect_attempt, w, HookOutput.empty)
  | .simple s, .on_connect_attempt_failure err, w, _ =>
      let (s', logs) := s.on_connect_attempt_failure err
      .ok (.simple s', w, ⟨[], 0, logs⟩)
  | .simple s, .on_transport_connected, w, _ =>
      .ok (.simple s, w, HookOutput.empty)
  | .simple s, .on_transport_disconnected, w, _ =>
      .ok (.simple s, w, HookOutput.empty)
  | .simple s, .on_connection_open, w, _ =>
      .ok (.simple s.on_connection_open, w, HookOutput.empty)
  | .simple s, .on_connection_closed, w, d =>
      let (s', out) := s.on_connection_closed (Strategy.is_active (.simple s) w) d
      .ok (.simple s', w, out)

/-- Run a sequence of hook calls, threading strategy and world state and
concatenating the observable effects. -/
def run_hooks (s : Strategy) (w : World) :
    List (Hook × ℚ) → Except String (Strategy × World × HookOutput)
  | [] => .ok (s, w, HookOutput.empty)
  | (h, d) :: rest =>
    match s.run_hook h w d with
    | .error e => .error e
    | .ok (s', w', out) =>
      match run_hooks s' w' rest with
      | .error e => .error e
      | .ok (s'', w'', outs) => .ok (s'', w'', out.append outs)

/-- Run a sequence of `on_connection_closed` calls with the shared flag
true, one per random draw, collecting `current_delay` after each call. -/
def run_closures (s : SimpleReconnectionStrategy) :
    List ℚ → List ℚ × SimpleReconnectionStrategy
  | [] => ([], s)
  | d :: ds =>
    let s' := (s.on_connection_closed true d).1
    let (ts, s'') := run_closures s' ds
    (s'.current_delay :: ts, s'')

end Pika

/-! ## Theorems -/

namespace Pika

open SimpleReconnectionStrategy

/-- One active closure neither drops `current_delay` below its old value
nor pushes it above `max_delay`, given a non-negative draw, `jitter ≥ 0`,
`multiplier ≥ 1` and a starting delay in `[0, max_delay]`. -/
theorem new_delay_le_and_ge (s : SimpleReconnectionStrategy) (d : ℚ)
    (hm : 1 ≤ s.multiplier) (hj : 0 ≤ s.jitter) (hd : 0 ≤ d)
    (hc0 : 0 ≤ s.current_delay) (hcm : s.current_delay ≤ s.max_delay) :
    s.current_delay ≤ ((s.new_delay d).2).current_delay ∧
    ((s.new_delay d).2).current_delay ≤ s.max_delay := by
  have hk : (1:ℚ) ≤ d * s.jitter + 1 := by nlinarith [mul_nonneg hd hj]
  have h1 : s.current_delay ≤ s.current_delay * (d * s.jitter + 1) :=
    le_mul_of_one_le_right hc0 hk
  have h2 : s.current_delay * (d * s.jitter + 1) ≤
      s.current_delay * (d * s.jitter + 1) * s.multiplier :=
    le_mul_of_one_le_right (mul_nonneg hc0 (by linarith)) hm
  constructor
  · exact le_min hcm (le_trans h1 h2)
  · exact min_le_left _ _

/-- Auxiliary invariant for sequences of active closures: if the state
satisfies `initial_retry_delay ≤ current_delay ≤ max_delay` (with
`current_delay ≥ 0`, `multiplier ≥ 1`, `jitter ≥ 0`), every delay in the
run stays in `[initial_retry_delay, max_delay]`. -/
theorem run_closures_inv_aux (ds : List ℚ) :
    ∀ s : SimpleReconnectionStrategy, 1 ≤ s.multiplier → 0 ≤ s.jitter →
    0 ≤ s.current_delay → s.initial_retry_delay ≤ s.current_delay →
    s.current_delay ≤ s.max_delay → (∀ d ∈ ds, 0 ≤ d) →
    ∀ x ∈ (run_closures s ds).1,
      s.initial_retry_delay ≤ x ∧ x ≤ s.max_delay := by
  induction ds with
  | nil =>
    intro s _ _ _ _ _ _ x hx
    simp [run_closures] at hx
  | cons d rest ih =>
    intro s hm hj hc0 hi hcm hds x hx
    have hd : 0 ≤ d := hds d (by simp)
    have hb := new_delay_le_and_ge s d hm hj hd hc0 hcm
    simp only [run_closures] at hx
    rcases List.mem_cons.mp hx with hx | hx
    · subst hx
      exact ⟨le_trans hi hb.1, hb.2⟩
    · exact ih ((s.new_delay d).2) hm hj (le_trans hc0 hb.1)
        (le_trans hi hb.1) hb.2 (fun e he => hds e (by simp [he])) x hx

/-- C1: for every `SimpleReconnectionStrategy` constructed with
`initial_retry_delay > 0`, `multiplier > 1`, `max_delay ≥
initial_retry_delay` and `jitter ≥ 0`, and every sequence of
`on_connection_closed` calls made while the ActiveFlag is true with each
random draw in `[0, 1)`, the invariant `initial_retry_delay ≤
current_delay ≤ max_delay` holds after each call. -/
theorem C1_delay_invariant (ird mult maxd jit : ℚ) (ds : List ℚ)
    (h0 : 0 < ird) (h1 : 1 < mult) (h2 : ird ≤ maxd) (h3 : 0 ≤ jit)
    (hds : ∀ d ∈ ds, 0 ≤ d ∧ d < 1) :
    ∀ x ∈ (run_closures (construct ird mult maxd jit) ds).1,
      ird ≤ x ∧ x ≤ maxd :=
  run_closures_inv_aux ds (construct ird mult maxd jit) h1.le h3 h0.le
    le_rfl h2 (fun d hd => (hds d hd).1)

theorem C1_delay_invariant_witness : (1:ℚ) ≤ 2 ∧ (2:ℚ) ≤ 30 :=
  C1_delay_invariant 1 2 30 (1/2) [0] (by norm_num) (by norm_num)
    (by norm_num) (by norm_num)
    (by intro d hd; rw [List.mem_singleton] at hd; subst hd; norm_num) 2
    (by norm_num [run_closures, construct, _reset, on_connection_closed,
      new_delay, min_def])

/-- The spec's reference recurrence, written from the spec's words:
`next = current_delay * ((draw * jitter) + 1) * multiplier`, capped at
`max_delay`, applied once per draw. For comparison with `run_closures`
over the embedded code. -/
def spec_delay_seq (cur mult maxd jit : ℚ) : List ℚ → List ℚ
  | [] => []
  | d :: ds =>
    min maxd (cur * ((d * jit) + 1) * mult) ::
      spec_delay_seq (min maxd (cur * ((d * jit) + 1) * mult)) mult maxd jit ds

/-- Auxiliary: the delays produced by the code equal the spec recurrence,
for every starting state. -/
theorem run_closures_eq_spec_aux (ds : List ℚ) :
    ∀ s : SimpleReconnectionStrategy,
      (run_closures s ds).1 =
        spec_delay_seq s.current_delay s.multiplier s.max_delay s.jitter ds := by
  induction ds with
  | nil => intro s; rfl
  | cons d rest ih =>
    intro s
    simp [run_closures, spec_delay_seq, on_connection_closed, new_delay, ih]

/-- C2: for every strategy state and fixed draw sequence, the delays of
successive active `on_connection_closed` calls equal the reference
recurrence `next = current_delay * ((draw * jitter) + 1) * multiplier`
capped at `max_delay`; with the defaults, two closures with draw 0 give
delays 2 then 4, and from delay 4 two closures with draw 1 give 12 then
30 (capped from 36). -/
theorem C2_determinism_and_scenario :
    (∀ (s : SimpleReconnectionStrategy) (ds : List ℚ),
      (run_closures s ds).1 =
        spec_delay_seq s.current_delay s.multiplier s.max_delay s.jitter ds) ∧
    (run_closures defaults [0, 0]).1 = [2, 4] ∧
    (run_closures { defaults with current_delay := 4 } [1, 1]).1 = [12, 30] := by
  refine ⟨fun s ds => run_closures_eq_spec_aux ds s, ?_, ?_⟩ <;>
    norm_num [run_closures, defaults, construct, _reset,
      on_connection_closed, new_delay, min_def]

/-- C3: from any state, `on_connection_open` sets `current_delay` to
`initial_retry_delay` and `attempts_since_last_success` to 0. -/
theorem C3_open_resets (s : SimpleReconnectionStrategy) :
    s.on_connection_open.current_delay = s.initial_retry_delay ∧
    s.on_connection_open.attempts_since_last_success = 0 :=
  ⟨rfl, rfl⟩

/-- C4: with the shared ActiveFlag false, `on_connection_closed`
schedules no timer, consumes no random draw, and leaves the whole
strategy state unchanged. -/
theorem C4_inactive_closure_noop (s : SimpleReconnectionStrategy)
    (draw : ℚ) :
    (s.on_connection_closed false draw).1 = s ∧
    (s.on_connection_closed false draw).2.timers = [] ∧
    (s.on_connection_closed false draw).2.draws = 0 :=
  ⟨rfl, rfl, rfl⟩

/-- C5: for any world and any sequence of hook invocations, the Null
strategy schedules no timer, consumes no draw, logs nothing, mutates no
state (its own or the shared ActiveFlag), and `can_reconnect` is false. -/
theorem C5_null_inert (w : World) (calls : List (Hook × ℚ)) :
    Strategy.can_reconnect Strategy.null = false ∧
    run_hooks Strategy.null w calls =
      Except.ok (Strategy.null, w, HookOutput.empty) := by
  refine ⟨rfl, ?_⟩
  induction calls with
  | nil => rfl
  | cons c rest ih =>
    obtain ⟨h, d⟩ := c
    simp [run_hooks, Strategy.run_hook, ih, HookOutput.append, HookOutput.empty]

/-- C6: `on_connect_attempt` increments `attempts_since_last_success` by
exactly 1 and changes no other field; `on_connect_attempt_failure` and
`on_connection_closed` (for either ActiveFlag value) leave
`attempts_since_last_success` unchanged. -/
theorem C6_attempt_counter_frame (s : SimpleReconnectionStrategy)
    (err : String) (active : Bool) (draw : ℚ) :
    s.on_connect_attempt.attempts_since_last_success =
      s.attempts_since_last_success + 1 ∧
    s.on_connect_attempt.current_delay = s.current_delay ∧
    s.on_connect_attempt.initial_retry_delay = s.initial_retry_delay ∧
    s.on_connect_attempt.multiplier = s.multiplier ∧
    s.on_connect_attempt.max_delay = s.max_delay ∧
    s.on_connect_attempt.jitter = s.jitter ∧
    (s.on_connect_attempt_failure err).1.attempts_since_last_success =
      s.attempts_since_last_success ∧
    (s.on_connection_closed active draw).1.attempts_since_last_success =
      s.attempts_since_last_success := by
  refine ⟨rfl, rfl, rfl, rfl, rfl, rfl, rfl, ?_⟩
  cases active
  · rfl
  · rfl

/-- C7: the ActiveFlag is process-wide: after any instance `a` calls
`set_active v`, any instance `b` reads `is_active = v`; in particular,
clearing it through `a` makes any Simple instance's
`on_connection_closed` a no-op. -/
theorem C7_shared_active_flag (a b : Strategy) (w : World) (v : Bool)
    (s : SimpleReconnectionStrategy) (draw : ℚ) :
    Strategy.is_active b (Strategy.set_active a w v) = v ∧
    s.on_connection_closed
        (Strategy.is_active b (Strategy.set_active a w false)) draw =
      (s, HookOutput.empty) :=
  ⟨rfl, rfl⟩

/-- C8: no hook of any variant ever raises: every dispatch returns
`Except.ok`, the error branch being unreachable, for every strategy,
hook (including `on_connect_attempt_failure` with arbitrary `err`),
world and draw. -/
theorem C8_hooks_total (s : Strategy) (h : Hook) (w : World) (d : ℚ) :
    ∃ r, s.run_hook h w d = Except.ok r := by
  cases s <;> cases h <;> exact ⟨_, rfl⟩

/-- C9 (amended): with `multiplier ≥ 1`, `jitter ≥ 0`, a draw in
`[0, 1)`, and a state whose `current_delay` lies in `[0, max_delay]` (as
every state constructed with `0 ≤ initial_retry_delay ≤ max_delay`
does), an active `on_connection_closed` call never decreases
`current_delay`. -/
theorem C9_closure_monotone (s : SimpleReconnectionStrategy) (d : ℚ)
    (hm : 1 ≤ s.multiplier) (hj : 0 ≤ s.jitter) (hd0 : 0 ≤ d)
    (hd1 : d < 1) (hc0 : 0 ≤ s.current_delay)
    (hcm : s.current_delay ≤ s.max_delay) :
    s.current_delay ≤ (s.on_connection_closed true d).1.current_delay :=
  (new_delay_le_and_ge s d hm hj hd0 hc0 hcm).1

theorem C9_closure_monotone_witness :
    defaults.current_delay ≤
      (defaults.on_connection_closed true 0).1.current_delay :=
  C9_closure_monotone defaults 0
    (by norm_num [defaults, construct, _reset])
    (by norm_num [defaults, construct, _reset])
    (by norm_num) (by norm_num)
    (by norm_num [defaults, construct, _reset])
    (by norm_num [defaults, construct, _reset])

/-- C9 fails as stated: a strategy constructed with `initial_retry_delay
= 40 > max_delay = 30` satisfies `multiplier ≥ 1` and `jitter ≥ 0`, yet
an active closure with draw 0 (in `[0, 1)`) lowers `current_delay` from
40 to 30. -/
theorem C9_counterexample :
    (1:ℚ) ≤ (construct 40 2 30 (1/2)).multiplier ∧
    (0:ℚ) ≤ (construct 40 2 30 (1/2)).jitter ∧
    ((0:ℚ) ≤ 0 ∧ (0:ℚ) < 1) ∧
    ((construct 40 2 30 (1/2)).on_connection_closed true 0).1.current_delay
      < (construct 40 2 30 (1/2)).current_delay := by
  norm_num [construct, _reset, on_connection_closed, new_delay, min_def]

/-- C10: `new_delay` returns exactly the post-call `current_delay`, its
update ignores the ActiveFlag (the state change equals the active branch
of `on_connection_closed`, and the flag guard lives only in
`on_connection_closed`). -/
theorem C10_new_delay_return_unguarded (s : SimpleReconnectionStrategy)
    (draw : ℚ) :
    (s.new_delay draw).1 = (s.new_delay draw).2.current_delay ∧
    (s.new_delay draw).2.current_delay =
      min s.max_delay
        (s.current_delay * ((draw * s.jitter) + 1) * s.multiplier) ∧
    (s.on_connection_closed true draw).1 = (s.new_delay draw).2 ∧
    (s.on_connection_closed false draw).1 = s :=
  ⟨rfl, rfl, rfl, rfl⟩

end Pika
